import Mathlib

/-!
Verification development for the gap-scanner data updater
(`update_data.py`, class `GapDataUpdater`).

The numeric model uses `ℚ` for prices and percentages and `ℤ` for volumes.
Timestamps are minutes since midnight US/Eastern on the event's date
(the source converts millisecond timestamps to Eastern wall-clock times and
only ever uses the time-of-day part within one session).  The regular
session is 9:30 (minute 570) through 16:00 (minute 960), i.e. 390 minutes
or 23400 seconds.

Pandas/NumPy collaborators are embedded by their documented semantics on
the shapes the source feeds them:
* `DataFrame.resample('5min')` with `o=first, h=max, l=min, c=last, v=sum`
  and `dropna()` groups bars by their 5-minute bin (bins aligned to
  midnight) and keeps only non-empty bins, in increasing bin order;
* `np.interp` is piecewise-linear interpolation with clamping outside the
  knot range;
* `np.linspace(0, 1, 78)` is the list `i / 77` for `i = 0 .. 77`;
* `np.mean(_, axis=0)` over equal-length rows is the elementwise mean.

Python's `round(x, 2)` (banker's rounding) and `int(x)` (truncation toward
zero) are modelled on `ℚ` by `pyRound2` and `pyInt` below.
-/

namespace GapDash

/- Batteries marks the `Rat` arithmetic irreducible; re-allow unfolding so
that concrete runs of the embedded functions can be settled by `decide`. -/
unseal Rat.mul Rat.inv Rat.add Rat.sub

/-- One raw OHLCV bar (source: elements of `intraday_data`, Polygon minute
aggregates).  `t` is minutes since midnight Eastern. -/
structure Bar where
  t : ℕ
  o : ℚ
  h : ℚ
  l : ℚ
  c : ℚ
  v : ℤ
deriving DecidableEq, Repr

/-- Maximum of a list of rationals, as `Series.max()` on a non-empty
series; 0 on the empty list (never used there by the source). -/
def listMaxQ : List ℚ → ℚ
  | [] => 0
  | x :: xs => xs.foldl max x

/-- Minimum of a list of rationals, as `Series.min()` on a non-empty
series; 0 on the empty list (never used there by the source). -/
def listMinQ : List ℚ → ℚ
  | [] => 0
  | x :: xs => xs.foldl min x

/-- Python `int(x)`: truncation toward zero. -/
def pyInt (q : ℚ) : ℤ := Int.tdiv q.num (q.den : ℤ)

/-- Python `round(x)` : round half to even (banker's rounding). -/
def pyRound (q : ℚ) : ℤ :=
  let n := ⌊q⌋
  let f := q - (n : ℚ)
  if f < 1 / 2 then n
  else if 1 / 2 < f then n + 1
  else if n % 2 = 0 then n else n + 1

/-- Python `round(x, 2)`. -/
def pyRound2 (q : ℚ) : ℚ := ((pyRound (q * 100) : ℚ)) / 100

/-- Two-digit zero-padded decimal, as in Python's format `%02d`. -/
def pad2 (n : ℕ) : String := if n < 10 then "0" ++ toString n else toString n

/-- `strftime('%H:%M')` for a time given in minutes since midnight. -/
def timeLabelOfMinutes (t : ℕ) : String := pad2 (t / 60) ++ ":" ++ pad2 (t % 60)

/-! ## Event Normalizer: intelligent price selection
(source: `process_gapper_intraday`, lines 182-217) -/

/-- The per-bucket representative-price selection of
`process_gapper_intraday` (lines 188-217): given the day-high/day-low
percentages and one 5-minute bucket's high/low/close percentages, pick the
bucket's representative `price_pct`. -/
def selectPricePct (daily_high_pct daily_low_pct interval_high_pct interval_low_pct
    interval_close_pct : ℚ) : ℚ :=
  let interval_midpoint_pct := (interval_high_pct + interval_low_pct) / 2
  if |interval_high_pct - daily_high_pct| < 1 then interval_high_pct
  else if |interval_low_pct - daily_low_pct| < 1 then interval_low_pct
  else if |interval_high_pct| > |interval_low_pct| ∧ |interval_high_pct| > 3 then
    interval_high_pct
  else if |interval_low_pct| > 3 then interval_low_pct
  else if |interval_high_pct - interval_low_pct| > 5 then
    (if |interval_high_pct| > |interval_low_pct| then interval_high_pct else interval_low_pct)
  else interval_close_pct * (7 / 10) + interval_midpoint_pct * (3 / 10)

/-! ## 5-minute resampling (source: lines 149-156) -/

/-- One resampled 5-minute bucket; `t` is the bucket's bin label in
minutes since midnight (a multiple of 5). -/
structure Bucket where
  t : ℕ
  o : ℚ
  h : ℚ
  l : ℚ
  c : ℚ
  v : ℤ
deriving DecidableEq, Repr

/-- The sorted, deduplicated 5-minute bin keys occupied by the bars
(pandas bins are aligned to midnight, so a bar at minute `t` falls in bin
`t / 5`).  Empty bins are dropped by the source's `dropna()`. -/
def bucketKeys (mh : List Bar) : List ℕ :=
  List.insertionSort (· ≤ ·) ((mh.map (fun b => b.t / 5)).dedup)

/-- The aggregated bucket for bin key `k`:
`o = first, h = max, l = min, c = last, v = sum` over the bin's bars. -/
def mkBucket (mh : List Bar) (k : ℕ) : Bucket :=
  let ms := mh.filter (fun b => b.t / 5 = k)
  { t := 5 * k
  , o := ((ms.head?).map Bar.o).getD 0
  , h := listMaxQ (ms.map Bar.h)
  , l := listMinQ (ms.map Bar.l)
  , c := ((ms.getLast?).map Bar.c).getD 0
  , v := (ms.map Bar.v).sum }

/-- `market_hours.resample('5min').agg(...).dropna()` (lines 150-156). -/
def resample5 (mh : List Bar) : List Bucket := (bucketKeys mh).map (mkBucket mh)

/-! ## process_gapper_intraday (source: lines 94-273) -/

/-- Calendar date of an event.  The source carries dates as `YYYY-MM-DD`
strings and re-parses them with `datetime.strptime` when grouping; the two
representations are in bijection, so the embedding carries the parsed
form. -/
structure Date where
  year : ℤ
  month : ℕ
  day : ℕ
deriving DecidableEq, Repr

/-- `df[df['t'].dt.time < time(9, 30)]['v'].sum()` (lines 112-113). -/
def preMarketVolumeOf (bars : List Bar) : ℤ :=
  ((bars.filter (fun b => decide (b.t < 570))).map Bar.v).sum

/-- Strict market hours 9:30-16:00 inclusive (lines 116-119). -/
def marketHoursOf (bars : List Bar) : List Bar :=
  bars.filter (fun b => decide (570 ≤ b.t ∧ b.t ≤ 960))

/-- `market_hours['o'].iloc[0]` (line 125). -/
def dayOpenOf (bars : List Bar) : ℚ := (((marketHoursOf bars).head?).map Bar.o).getD 0

/-- `market_hours['h'].max()` (line 126). -/
def dayHighOf (bars : List Bar) : ℚ := listMaxQ ((marketHoursOf bars).map Bar.h)

/-- `market_hours['l'].min()` (line 127). -/
def dayLowOf (bars : List Bar) : ℚ := listMinQ ((marketHoursOf bars).map Bar.l)

/-- `market_hours['c'].iloc[-1]` (line 128). -/
def dayCloseOf (bars : List Bar) : ℚ := (((marketHoursOf bars).getLast?).map Bar.c).getD 0

/-- Minute of the first bar attaining the session high
(`market_hours[market_hours['h'] == day_high].iloc[0]`, lines 131-132). -/
def hodMinuteOf (bars : List Bar) : ℕ :=
  ((((marketHoursOf bars).filter (fun b => decide (b.h = dayHighOf bars))).head?).map Bar.t).getD 0

/-- Progress through the trading day for a clock time `t` in minutes:
`max(0, min(1, seconds_from_930 / total_market_seconds))`
(lines 139-141 and 177-178). -/
def progressOf (t : ℕ) : ℚ := max 0 (min 1 (((t : ℚ) - 570) * 60 / 23400))

/-- `((day_open - prev_close) / prev_close) * 100` (line 144). -/
def actualGapOf (bars : List Bar) (prev_close : ℚ) : ℚ :=
  ((dayOpenOf bars - prev_close) / prev_close) * 100

/-- `((day_high - day_open) / day_open) * 100` (line 162). -/
def dailyHighPctOf (bars : List Bar) : ℚ :=
  ((dayHighOf bars - dayOpenOf bars) / dayOpenOf bars) * 100

/-- `((day_low - day_open) / day_open) * 100` (line 163). -/
def dailyLowPctOf (bars : List Bar) : ℚ :=
  ((dayLowOf bars - dayOpenOf bars) / dayOpenOf bars) * 100

/-- Percent change from the session open for one price. -/
def pctFromOpen (bars : List Bar) (p : ℚ) : ℚ := ((p - dayOpenOf bars) / dayOpenOf bars) * 100

/-- `times_normalized` (lines 175-179): clamped progress of each bucket's
bin start. -/
def timesNormalizedOf (bars : List Bar) : List ℚ :=
  (resample5 (marketHoursOf bars)).map (fun bk => progressOf bk.t)

/-- `prices_normalized` (lines 181-219): the intelligent selection applied
to each bucket's percentages. -/
def pricesNormalizedOf (bars : List Bar) : List ℚ :=
  (resample5 (marketHoursOf bars)).map (fun bk =>
    selectPricePct (dailyHighPctOf bars) (dailyLowPctOf bars)
      (pctFromOpen bars bk.h) (pctFromOpen bars bk.l) (pctFromOpen bars bk.c))

/-- `highs_normalized` (line 220). -/
def highsNormalizedOf (bars : List Bar) : List ℚ :=
  (resample5 (marketHoursOf bars)).map (fun bk => pctFromOpen bars bk.h)

/-- `lows_normalized` (line 221). -/
def lowsNormalizedOf (bars : List Bar) : List ℚ :=
  (resample5 (marketHoursOf bars)).map (fun bk => pctFromOpen bars bk.l)

/-- `int(market_hours['v'].sum())` (line 242). -/
def totalVolumeOf (bars : List Bar) : ℤ := ((marketHoursOf bars).map Bar.v).sum

/-- `int(dollar_volume)` where `dollar_volume = total_volume * day_open`
(lines 243, 260). -/
def dollarVolumeOf (bars : List Bar) : ℤ := pyInt ((totalVolumeOf bars : ℚ) * dayOpenOf bars)

/-- The qualifying-event record returned by `process_gapper_intraday`
(lines 245-269).  The source dict's key `open` is spelled `open_price`
here because `open` is a Lean keyword. -/
structure Gapper where
  ticker : String
  date : Date
  gap_percentage : ℚ
  previous_close : ℚ
  open_price : ℚ
  high : ℚ
  low : ℚ
  close : ℚ
  open_to_close_change : ℚ
  high_of_day_pct : ℚ
  low_of_day_pct : ℚ
  hod_time_percentage : ℚ
  hod_time_str : String
  total_volume : ℤ
  dollar_volume : ℤ
  pre_market_volume : ℤ
  times_normalized : List ℚ
  prices_normalized : List ℚ
  highs_normalized : List ℚ
  lows_normalized : List ℚ
  time_labels : List String
  price_values : List ℚ
deriving DecidableEq, Repr

/-- The record assembled at lines 245-269 once every qualification gate
has passed. -/
def mkGapper (bars : List Bar) (ticker : String) (date : Date) (prev_close : ℚ) : Gapper :=
  { ticker := ticker
  , date := date
  , gap_percentage := actualGapOf bars prev_close
  , previous_close := prev_close
  , open_price := dayOpenOf bars
  , high := dayHighOf bars
  , low := dayLowOf bars
  , close := dayCloseOf bars
  , open_to_close_change := ((dayCloseOf bars - dayOpenOf bars) / dayOpenOf bars) * 100
  , high_of_day_pct := dailyHighPctOf bars
  , low_of_day_pct := dailyLowPctOf bars
  , hod_time_percentage := progressOf (hodMinuteOf bars)
  , hod_time_str := timeLabelOfMinutes (hodMinuteOf bars)
  , total_volume := totalVolumeOf bars
  , dollar_volume := dollarVolumeOf bars
  , pre_market_volume := preMarketVolumeOf bars
  , times_normalized := timesNormalizedOf bars
  , prices_normalized := pricesNormalizedOf bars
  , highs_normalized := highsNormalizedOf bars
  , lows_normalized := lowsNormalizedOf bars
  , time_labels := (resample5 (marketHoursOf bars)).map (fun bk => timeLabelOfMinutes bk.t)
  , price_values := pricesNormalizedOf bars }

/-- `process_gapper_intraday` (lines 94-273).  The gates in source order:
empty frame (line 101), empty market hours or pre-market volume below one
million (line 121), actual gap below 50 (line 145), empty resample
(line 158); otherwise the event record is produced.  The `gap_percentage`
argument is received (line 94) but the stored value is the recomputed
`actual_gap`, so the argument is unused.  A zero `prev_close` would raise
`ZeroDivisionError` in the source and be converted to `None` by the
function's own `except` (lines 271-273); in the embedding the total `ℚ`
division makes the gap 0 < 50, giving `none` as well. -/
def process_gapper_intraday (intraday_data : List Bar) (ticker : String) (date : Date)
    (prev_close : ℚ) (gap_percentage : ℚ) : Option Gapper :=
  if intraday_data = [] then none
  else if marketHoursOf intraday_data = [] ∨ preMarketVolumeOf intraday_data < 1000000 then none
  else if actualGapOf intraday_data prev_close < 50 then none
  else if resample5 (marketHoursOf intraday_data) = [] then none
  else some (mkGapper intraday_data ticker date prev_close)

/-! ## np.interp (used at lines 393-395) -/

/-- `np.interp x xp fp` for an increasing knot list `xp`: piecewise-linear
interpolation, clamped to the end values outside the knot range.  The
source only calls it with equal-length lists of length at least 2. -/
def interp (x : ℚ) : List ℚ → List ℚ → ℚ
  | [], _ => 0
  | [_], [] => 0
  | [_], y0 :: _ => y0
  | _ :: _ :: _, [] => 0
  | _ :: _ :: _, [y0] => y0
  | x0 :: x1 :: xs, y0 :: y1 :: ys =>
    if x ≤ x0 then y0
    else if x ≤ x1 then y0 + (y1 - y0) * (x - x0) / (x1 - x0)
    else interp x (x1 :: xs) (y1 :: ys)

/-! ## calculate_period_average (source: lines 366-472) -/

/-- `np.linspace(0, 1, 78)` (line 376). -/
def time_points : List ℚ := (List.range 78).map (fun i : ℕ => (i : ℚ) / 77)

/-- One event curve interpolated onto the canonical grid (lines 393-395). -/
def interpCurve (ts ps : List ℚ) : List ℚ := time_points.map (fun t => interp t ts ps)

/-- `np.mean(curves, axis=0)` over rows that all have the grid's length
(lines 416-418). -/
def meanAxis0 (curves : List (List ℚ)) : List ℚ :=
  (List.range 78).map (fun j => ((curves.map (fun cv => cv.getD j 0)).sum) / (curves.length : ℚ))

/-- `np.mean` of a flat list (lines 421-423). -/
def meanQ (l : List ℚ) : ℚ := l.sum / (l.length : ℚ)

/-- The clock-label arithmetic of lines 435-441 and 445-452: minutes past
9:30 converted to an `HH:MM` string via Python floor-division and
truncation. -/
def clockLabel (minutes_from_930 : ℚ) : String :=
  let hour : ℤ := 9 + ⌊minutes_from_930 / 60⌋
  let minute : ℤ := 30 + (⌊minutes_from_930⌋ - 60 * ⌊minutes_from_930 / 60⌋)
  let hour' : ℤ := if 60 ≤ minute then hour + 1 else hour
  let minute' : ℤ := if 60 ≤ minute then minute - 60 else minute
  pad2 hour'.toNat ++ ":" ++ pad2 minute'.toNat

/-- `len(gapper['times_normalized']) > 1` (line 391): only these events
contribute interpolated curves and HOD times. -/
def curveEligible (g : Gapper) : Bool := decide (1 < g.times_normalized.length)

/-- The period summary dict built at lines 456-472. -/
structure PeriodAggregate where
  period_name : String
  gapper_count : ℕ
  avg_gap_percentage : ℚ
  avg_open_to_close : ℚ
  total_volume : ℤ
  total_dollar_volume : ℤ
  avg_high_of_day_pct : ℚ
  avg_low_of_day_pct : ℚ
  avg_hod_time : ℚ
  avg_hod_time_str : String
  time_labels : List String
  avg_prices : List ℚ
  avg_highs : List ℚ
  avg_lows : List ℚ
  open_line : List ℚ
deriving DecidableEq, Repr

/-- `market_minutes = 6.5 * 60` (line 375). -/
def market_minutes : ℚ := 390

/-- The aggregate assembled at lines 390-472 once both emptiness gates
have passed.  Scalar sums and the HOD/LOD percentage lists run over all
events (lines 404-410); interpolated curves and HOD times only over the
curve-eligible ones (lines 391-402); every mean that the source divides
by `gapper_count` uses the full event count (lines 454-464). -/
def mkPeriodAggregate (gappers : List Gapper) (period_name : String) : PeriodAggregate :=
  let curveGappers := gappers.filter curveEligible
  let all_price_curves := curveGappers.map
    (fun g => interpCurve g.times_normalized g.prices_normalized)
  let all_high_curves := curveGappers.map
    (fun g => interpCurve g.times_normalized g.highs_normalized)
  let all_low_curves := curveGappers.map
    (fun g => interpCurve g.times_normalized g.lows_normalized)
  let high_of_day_times := curveGappers.map Gapper.hod_time_percentage
  let avg_hod_time := meanQ high_of_day_times
  let time_labels := time_points.map (fun t => clockLabel (t * market_minutes))
  { period_name := period_name
  , gapper_count := gappers.length
  , avg_gap_percentage := pyRound2 ((gappers.map Gapper.gap_percentage).sum / (gappers.length : ℚ))
  , avg_open_to_close :=
      pyRound2 ((gappers.map Gapper.open_to_close_change).sum / (gappers.length : ℚ))
  , total_volume := (gappers.map Gapper.total_volume).sum
  , total_dollar_volume := (gappers.map Gapper.dollar_volume).sum
  , avg_high_of_day_pct := pyRound2 (meanQ (gappers.map Gapper.high_of_day_pct))
  , avg_low_of_day_pct := pyRound2 (meanQ (gappers.map Gapper.low_of_day_pct))
  , avg_hod_time := avg_hod_time
  , avg_hod_time_str := clockLabel (avg_hod_time * market_minutes)
  , time_labels := time_labels
  , avg_prices := (meanAxis0 all_price_curves).map pyRound2
  , avg_highs := (meanAxis0 all_high_curves).map pyRound2
  , avg_lows := (meanAxis0 all_low_curves).map pyRound2
  , open_line := List.replicate time_labels.length 0 }

/-- `calculate_period_average` (lines 366-472): `None` on an empty event
list (line 371) and again when no event contributed a curve (line 412);
otherwise the assembled aggregate. -/
def calculate_period_average (gappers : List Gapper) (period_name : String) :
    Option PeriodAggregate :=
  if gappers = [] then none
  else if gappers.filter curveEligible = [] then none
  else some (mkPeriodAggregate gappers period_name)

/-! ## Candidate screening (source: `fetch_candidates_for_date`,
lines 275-364, and `filter_ticker_symbols`, lines 35-48) -/

/-- One row of the grouped-daily response: ticker symbol and opening
price (lines 311-312). -/
structure StockRow where
  T : String
  o : ℚ
deriving DecidableEq, Repr

/-- One entry of `initial_candidates` (lines 322-327). -/
structure Candidate where
  ticker : String
  previous_close : ℚ
  initial_gap : ℚ
  opening : ℚ
deriving DecidableEq, Repr

/-- Python's `str.endswith`: the second string is a suffix of the first,
as character sequences. -/
def strEndsWith (s suf : String) : Bool := List.isSuffixOf suf.toList s.toList

/-- `filter_ticker_symbols` (lines 35-48). -/
def filter_ticker_symbols (ticker : String) : Bool :=
  if 5 ≤ ticker.length then false
  else if strEndsWith ticker "WS" || strEndsWith ticker "RT" || strEndsWith ticker "WSA" then
    false
  else if ticker = "ZVZZT" || ticker = "ZWZZT" || ticker = "ZBZZT" then false
  else true

/-- `initial_gap = ((opening - prev_close) / prev_close) * 100`
(line 319). -/
def initialGapOf (opening prev_close : ℚ) : ℚ := ((opening - prev_close) / prev_close) * 100

/-- One iteration of the screening loop (lines 310-327).  The division at
line 319 raises `ZeroDivisionError` when the ticker's previous close is
zero; that exception is modelled as `Except.error`. -/
def screenStock (prev_closes : List (String × ℚ)) (acc : List Candidate) (stock : StockRow) :
    Except Unit (List Candidate) :=
  if filter_ticker_symbols stock.T = false then Except.ok acc
  else
    match prev_closes.lookup stock.T with
    | none => Except.ok acc
    | some prev_close =>
      if prev_close = 0 then Except.error ()
      else if 50 ≤ initialGapOf stock.o prev_close ∧ (3 / 10 : ℚ) ≤ stock.o then
        Except.ok (acc ++ [{ ticker := stock.T, previous_close := prev_close
                           , initial_gap := initialGapOf stock.o prev_close
                           , opening := stock.o }])
      else Except.ok acc

/-- The screening loop over one date's grouped rows (lines 309-327),
threading the accumulated `initial_candidates`; an exception anywhere
aborts the loop. -/
def screenStocksAux (prev_closes : List (String × ℚ)) (acc : List Candidate) :
    List StockRow → Except Unit (List Candidate)
  | [] => Except.ok acc
  | s :: ss =>
    match screenStock prev_closes acc s with
    | Except.ok acc' => screenStocksAux prev_closes acc' ss
    | Except.error e => Except.error e

/-- The whole screening loop started from the empty candidate list. -/
def screenStocks (stocks : List StockRow) (prev_closes : List (String × ℚ)) :
    Except Unit (List Candidate) :=
  screenStocksAux prev_closes [] stocks

/-- The screening stage of `fetch_candidates_for_date` as observed by its
caller: the function-level `except` (lines 360-364) converts any exception
raised inside the loop into an empty candidate list for the whole date. -/
def fetch_candidates_screen (stocks : List StockRow) (prev_closes : List (String × ℚ)) :
    List Candidate :=
  match screenStocks stocks prev_closes with
  | Except.ok cands => cands
  | Except.error _ => []

/-! ## Monthly windowing (source: `calculate_all_period_averages`,
lines 474-521) -/

/-- `datetime - timedelta(days=1)` on a civil date. -/
def prevDay : Date → Date
  | ⟨y, m, d⟩ =>
    if 2 ≤ d then ⟨y, m, d - 1⟩
    else if 2 ≤ m then
      ⟨y, m - 1,
        if m - 1 = 2 then (if y % 4 = 0 ∧ (y % 100 ≠ 0 ∨ y % 400 = 0) then 29 else 28)
        else if m - 1 = 4 ∨ m - 1 = 6 ∨ m - 1 = 9 ∨ m - 1 = 11 then 30 else 31⟩
    else ⟨y - 1, 12, 31⟩

/-- `datetime - timedelta(days=k)`. -/
def subDays (dt : Date) : ℕ → Date
  | 0 => dt
  | k + 1 => prevDay (subDays dt k)

/-- `month_names` (line 498). -/
def month_names : List String :=
  ["Jan", "Feb", "Mar", "Apr", "May", "Jun", "Jul", "Aug", "Sep", "Oct", "Nov", "Dec"]

/-- The month keys generated by the loop at lines 505-508: for
`i = 11, ..., 0`, the month of
`current_date.replace(day=1) - timedelta(days=i*30)`.  (The source's
second `replace(day=1)` only changes the day and cannot change the
month.) -/
def generatedMonthKeys (current_date : Date) : List (ℤ × ℕ) :=
  (List.range 12).map (fun j =>
    let i := 11 - j
    let target := subDays ⟨current_date.year, current_date.month, 1⟩ (i * 30)
    (target.year, target.month))

/-- `f"{month_name} {year}"` (line 513). -/
def monthPeriodName (k : ℤ × ℕ) : String :=
  (month_names.getD (k.2 - 1) "") ++ " " ++ toString k.1

/-- The events grouped under one `year-month` key (lines 485-486). -/
def gappersInMonth (gappers : List Gapper) (k : ℤ × ℕ) : List Gapper :=
  gappers.filter (fun g => decide ((g.date.year, g.date.month) = k))

/-- Index of a month on the time line, for stating which months lie in a
trailing window. -/
def monthIndex (k : ℤ × ℕ) : ℤ := 12 * k.1 + (k.2 : ℤ) - 1

/-- The monthly branch of `calculate_all_period_averages`
(lines 497-520): walk the generated keys, and for each key with events
whose aggregation succeeds, emit the `(key, aggregate)` entry.  The
source stores entries in a dict keyed by `month_key`; duplicate generated
keys rewrite the same entry with the same value, so the dict's graph is
the set of entries of this list. -/
def calculate_monthly_averages (current_date : Date) (all_gappers : List Gapper) :
    List ((ℤ × ℕ) × PeriodAggregate) :=
  (generatedMonthKeys current_date).foldl (fun acc k =>
    let gs := gappersInMonth all_gappers k
    if gs ≠ [] then
      match calculate_period_average gs (monthPeriodName k) with
      | some a => acc ++ [(k, a)]
      | none => acc
    else acc) []

/-! ## Concrete inputs used by witnesses and counterexamples -/

/-- A fixed event date. -/
def d0 : Date := ⟨2026, 1, 5⟩

/-- A day with one pre-market bar carrying the qualifying volume and two
session bars; the session high (3) is reached in the second 5-minute
bucket. -/
def c2bars : List Bar :=
  [⟨300, 1, 1, 1, 1, 1000000⟩, ⟨570, 2, 2, 2, 2, 100⟩, ⟨575, 2, 3, 2, 5 / 2, 100⟩]

/-- A day whose earliest session bar is at 9:35, so the first resampled
bucket is the 9:35 bin. -/
def c3bars : List Bar :=
  [⟨300, 1, 1, 1, 1, 1000000⟩, ⟨575, 2, 3, 2, 5 / 2, 100⟩]

/-- A day opening at 3 against a previous close of 2: an exact 50% gap. -/
def c5bars : List Bar :=
  [⟨300, 1, 1, 1, 1, 1000000⟩, ⟨570, 3, 3, 3, 3, 100⟩, ⟨575, 3, 3, 3, 3, 100⟩]

/-- A qualifying February-2026 event with a two-point curve. -/
def gFeb : Gapper :=
  { ticker := "FEB", date := ⟨2026, 2, 10⟩, gap_percentage := 60, previous_close := 1
  , open_price := 8 / 5, high := 2, low := 3 / 2, close := 9 / 5, open_to_close_change := 25 / 2
  , high_of_day_pct := 25, low_of_day_pct := -25 / 4, hod_time_percentage := 1 / 2
  , hod_time_str := "12:45", total_volume := 2000000, dollar_volume := 3200000
  , pre_market_volume := 1500000
  , times_normalized := [0, 1 / 2], prices_normalized := [0, 10]
  , highs_normalized := [0, 25], lows_normalized := [-25 / 4, 0]
  , time_labels := ["09:30", "12:45"], price_values := [0, 10] }

/-- A qualifying event with a two-point curve, for aggregator witnesses. -/
def gAgg : Gapper :=
  { ticker := "AGG", date := ⟨2026, 1, 6⟩, gap_percentage := 80, previous_close := 1
  , open_price := 9 / 5, high := 3, low := 3 / 2, close := 2, open_to_close_change := 100 / 9
  , high_of_day_pct := 200 / 3, low_of_day_pct := -50 / 3, hod_time_percentage := 1 / 4
  , hod_time_str := "11:07", total_volume := 3000000, dollar_volume := 5400000
  , pre_market_volume := 1200000
  , times_normalized := [0, 1], prices_normalized := [0, 20]
  , highs_normalized := [0, 30], lows_normalized := [-5, 0]
  , time_labels := ["09:30", "16:00"], price_values := [0, 20] }

/-! ## Helper lemmas -/

theorem le_foldl_max (l : List ℚ) (a : ℚ) : a ≤ l.foldl max a := by
  induction l generalizing a with
  | nil => exact le_refl a
  | cons x xs ih => exact le_trans (le_max_left a x) (ih (max a x))

theorem mem_le_foldl_max (l : List ℚ) (a x : ℚ) (hx : x ∈ l) : x ≤ l.foldl max a := by
  induction l generalizing a with
  | nil => cases hx
  | cons y ys ih =>
    rcases List.mem_cons.mp hx with rfl | hmem
    · exact le_trans (le_max_right a x) (le_foldl_max ys _)
    · exact ih _ hmem

theorem foldl_max_le (l : List ℚ) (a c : ℚ) (ha : a ≤ c) (h : ∀ x ∈ l, x ≤ c) :
    l.foldl max a ≤ c := by
  induction l generalizing a with
  | nil => exact ha
  | cons y ys ih =>
    exact ih (max a y) (max_le ha (h y (List.mem_cons_self y ys)))
      (fun x hx => h x (List.mem_cons_of_mem _ hx))

theorem foldl_max_mem (l : List ℚ) (a : ℚ) : l.foldl max a = a ∨ l.foldl max a ∈ l := by
  induction l generalizing a with
  | nil => exact Or.inl rfl
  | cons y ys ih =>
    rcases ih (max a y) with hcase | hcase
    · rcases max_choice a y with h2 | h2
      · exact Or.inl (by rw [List.foldl_cons, hcase, h2])
      · refine Or.inr ?_
        rw [List.foldl_cons, hcase, h2]
        exact List.mem_cons_self y ys
    · exact Or.inr (List.mem_cons_of_mem _ hcase)

theorem listMaxQ_mem {l : List ℚ} (h : l ≠ []) : listMaxQ l ∈ l := by
  cases l with
  | nil => exact absurd rfl h
  | cons x xs =>
    rcases foldl_max_mem xs x with hcase | hcase
    · rw [listMaxQ, hcase]; exact List.mem_cons_self x xs
    · exact List.mem_cons_of_mem _ hcase

theorem le_listMaxQ {l : List ℚ} {x : ℚ} (hx : x ∈ l) : x ≤ listMaxQ l := by
  cases l with
  | nil => cases hx
  | cons y ys =>
    rcases List.mem_cons.mp hx with rfl | hmem
    · exact le_foldl_max ys x
    · exact mem_le_foldl_max ys y x hmem

theorem listMaxQ_le {l : List ℚ} {c : ℚ} (h : l ≠ []) (hc : ∀ x ∈ l, x ≤ c) :
    listMaxQ l ≤ c := by
  cases l with
  | nil => exact absurd rfl h
  | cons y ys =>
    exact foldl_max_le ys y c (hc y (List.mem_cons_self y ys))
      (fun x hx => hc x (List.mem_cons_of_mem _ hx))

theorem selectPricePct_high (dhp dlp lp cp : ℚ) : selectPricePct dhp dlp dhp lp cp = dhp := by
  unfold selectPricePct
  simp

/-- Destructing a successful run of the normalizer: the produced record is
`mkGapper`, the market-hour bars are non-empty, and the gap gate held. -/
theorem process_some_elim {bars : List Bar} {tk : String} {dt : Date} {pc gp : ℚ} {g : Gapper}
    (h : process_gapper_intraday bars tk dt pc gp = some g) :
    g = mkGapper bars tk dt pc ∧ marketHoursOf bars ≠ [] ∧ ¬ actualGapOf bars pc < 50 := by
  unfold process_gapper_intraday at h
  by_cases h1 : bars = []
  · simp [h1] at h
  rw [if_neg h1] at h
  by_cases h2 : marketHoursOf bars = [] ∨ preMarketVolumeOf bars < 1000000
  · simp [h2] at h
  rw [if_neg h2] at h
  by_cases h3 : actualGapOf bars pc < 50
  · simp [h3] at h
  rw [if_neg h3] at h
  by_cases h4 : resample5 (marketHoursOf bars) = []
  · simp [h4] at h
  rw [if_neg h4] at h
  exact ⟨(Option.some.inj h).symm, (not_or.mp h2).1, h3⟩

/-- Some bucket of the resample attains the bar-level maximum high. -/
theorem exists_bucket_attaining_high (mh : List Bar) (hne : mh ≠ []) :
    ∃ bk ∈ resample5 mh, bk.h = listMaxQ (mh.map Bar.h) := by
  have hmapne : mh.map Bar.h ≠ [] := by
    simpa using hne
  obtain ⟨b0, hb0, hb0h⟩ := List.mem_map.mp (listMaxQ_mem hmapne)
  refine ⟨mkBucket mh (b0.t / 5), ?_, ?_⟩
  · refine List.mem_map.mpr ⟨b0.t / 5, ?_, rfl⟩
    simp only [bucketKeys, List.mem_insertionSort, List.mem_dedup]
    exact List.mem_map.mpr ⟨b0, hb0, rfl⟩
  · have hb0ms : b0 ∈ mh.filter (fun b => b.t / 5 = b0.t / 5) :=
      List.mem_filter.mpr ⟨hb0, by simp⟩
    have hle1 : listMaxQ (mh.map Bar.h) ≤
        listMaxQ ((mh.filter (fun b => b.t / 5 = b0.t / 5)).map Bar.h) := by
      rw [← hb0h]
      exact le_listMaxQ (List.mem_map.mpr ⟨b0, hb0ms, rfl⟩)
    have hle2 : listMaxQ ((mh.filter (fun b => b.t / 5 = b0.t / 5)).map Bar.h) ≤
        listMaxQ (mh.map Bar.h) := by
      refine listMaxQ_le (List.ne_nil_of_mem (List.mem_map.mpr ⟨b0, hb0ms, rfl⟩)) ?_
      intro y hy
      obtain ⟨b, hbmem, rfl⟩ := List.mem_map.mp hy
      exact le_listMaxQ (List.mem_map.mpr ⟨b, (List.mem_filter.mp hbmem).1, rfl⟩)
    show (mkBucket mh (b0.t / 5)).h = listMaxQ (mh.map Bar.h)
    exact le_antisymm hle2 hle1

/-! ## Claims -/

/-- C1: for every qualifying event and every 5-minute bucket, the Event
Normalizer selects the representative price_pct by the fixed first-match
precedence: high within 1.0 of the day high, then low within 1.0 of the
day low, then momentum high, then fade low, then high-volatility extreme,
else the 0.7 close / 0.3 midpoint blend. -/
theorem C1_price_selection_precedence (dhp dlp hp lp cp : ℚ) :
    selectPricePct dhp dlp hp lp cp =
      if |hp - dhp| < 1 then hp
      else if |lp - dlp| < 1 then lp
      else if |hp| > |lp| ∧ |hp| > 3 then hp
      else if |lp| > 3 then lp
      else if |hp - lp| > 5 then (if |hp| > |lp| then hp else lp)
      else (7 / 10) * cp + (3 / 10) * ((hp + lp) / 2) := by
  unfold selectPricePct
  split_ifs <;> ring

/-- C2: in every event returned by the normalizer, a bucket whose high
percentage equals the day-high percentage receives that high as its
price_pct, and whenever the day-high percentage is positive some point of
the prices_normalized curve is at least 0.9 times it. -/
theorem C2_high_reachability (bars : List Bar) (tk : String) (dt : Date) (pc gp : ℚ)
    (g : Gapper) (h : process_gapper_intraday bars tk dt pc gp = some g) :
    (∀ i (hh : i < g.highs_normalized.length) (hp : i < g.prices_normalized.length),
        g.highs_normalized[i] = g.high_of_day_pct →
        g.prices_normalized[i] = g.highs_normalized[i]) ∧
    (0 < g.high_of_day_pct →
        ∃ p ∈ g.prices_normalized, (9 / 10) * g.high_of_day_pct ≤ p) := by
  obtain ⟨hg, hmh, -⟩ := process_some_elim h
  subst hg
  constructor
  · intro i hh hp hEq
    simp only [mkGapper, highsNormalizedOf, pricesNormalizedOf, dailyHighPctOf] at hEq hh hp ⊢
    rw [List.getElem_map] at hEq ⊢
    rw [List.getElem_map]
    rw [hEq]
    exact selectPricePct_high _ _ _ _
  · intro hpos
    obtain ⟨bk, hbk, hbkh⟩ := exists_bucket_attaining_high (marketHoursOf bars) hmh
    refine ⟨(mkGapper bars tk dt pc).high_of_day_pct, ?_, ?_⟩
    · show (mkGapper bars tk dt pc).high_of_day_pct ∈ pricesNormalizedOf bars
      refine List.mem_map.mpr ⟨bk, hbk, ?_⟩
      have hpct : pctFromOpen bars bk.h = dailyHighPctOf bars := by
        rw [hbkh]; rfl
      rw [hpct]
      exact selectPricePct_high _ _ _ _
    · nlinarith [hpos]

/-- C2 witness: a concrete event whose day-high percentage is positive and
whose curve reaches at least 0.9 of it. -/
theorem C2_high_reachability_witness :
    0 < (mkGapper c2bars "T" d0 1).high_of_day_pct ∧
    ∃ p ∈ (mkGapper c2bars "T" d0 1).prices_normalized,
      (9 / 10) * (mkGapper c2bars "T" d0 1).high_of_day_pct ≤ p :=
  ⟨by decide, (C2_high_reachability c2bars "T" d0 1 100 _ (by decide)).2 (by decide)⟩

/-- C6 counterexample: the candidate with previous close 10 and open 20.20
(ratio 2.02) is accepted by the screening stage, not rejected as a
probable split — the source has no split-ratio rule. -/
theorem C6_counterexample :
    fetch_candidates_screen [⟨"ABC", 101 / 5⟩] [("ABC", 10)] =
      [{ ticker := "ABC", previous_close := 10, initial_gap := 102, opening := 101 / 5 }] := by
  decide

/-- C6 amended: the screening applies no split-ratio rejection; both the
ratio-2.02 and the ratio-2.20 candidate (previous close 10) pass the
screen, which tests only the symbol filter, the 50% gap floor and the
$0.30 price floor. -/
theorem C6_no_split_ratio_rejection :
    fetch_candidates_screen [⟨"AAA", 101 / 5⟩, ⟨"BBB", 22⟩] [("AAA", 10), ("BBB", 10)] =
      [{ ticker := "AAA", previous_close := 10, initial_gap := 102, opening := 101 / 5 },
       { ticker := "BBB", previous_close := 10, initial_gap := 120, opening := 22 }] := by
  decide

/-- C7: with a zero previous close the screening loop raises from the
percentage division instead of short-circuiting; the date-level handler
turns the whole date into an empty candidate list, so the other
(otherwise qualifying) ticker of that date is dropped too — against what
the claim requires.  Alone, the same qualifying ticker passes. -/
theorem C7_zero_prev_close_bug :
    screenStocks [⟨"AAA", 1⟩, ⟨"BBB", 2⟩] [("AAA", 0), ("BBB", 1)] = Except.error () ∧
    fetch_candidates_screen [⟨"AAA", 1⟩, ⟨"BBB", 2⟩] [("AAA", 0), ("BBB", 1)] = [] ∧
    fetch_candidates_screen [⟨"BBB", 2⟩] [("BBB", 1)] =
      [{ ticker := "BBB", previous_close := 1, initial_gap := 100, opening := 2 }] := by
  refine ⟨by rfl, by decide, by decide⟩

/-- C8: the trailing-12-months key generation subtracts i*30 days from the
first of the current month; run in March 2026 it never generates February
2026 (March 1 minus 30 days is January 30), so a qualifying February event
is absent from the monthly output even though its month is the immediately
preceding month and its aggregation would succeed. -/
theorem C8_trailing_window_bug :
    calculate_monthly_averages ⟨2026, 3, 15⟩ [gFeb] = [] ∧
    ((2026 : ℤ), (2 : ℕ)) ∉ generatedMonthKeys ⟨2026, 3, 15⟩ ∧
    monthIndex (2026, 3) - monthIndex (2026, 2) = 1 ∧
    (gFeb.date.year, gFeb.date.month) = ((2026 : ℤ), (2 : ℕ)) ∧
    (calculate_period_average [gFeb] (monthPeriodName (2026, 2))).isSome = true := by
  refine ⟨by decide, by decide, by decide, by decide, by decide⟩

/-! ## Time-progress lemmas (for C3) -/

theorem mem_marketHours_t {bars : List Bar} {b : Bar} (hb : b ∈ marketHoursOf bars) :
    570 ≤ b.t ∧ b.t ≤ 960 :=
  of_decide_eq_true (List.mem_filter.mp hb).2

theorem sorted_head?_eq {l : List ℕ} {a : ℕ} (hs : List.Sorted (· ≤ ·) l) (ha : a ∈ l)
    (hlb : ∀ x ∈ l, a ≤ x) : l.head? = some a := by
  cases l with
  | nil => cases ha
  | cons x xs =>
    have h1 : a ≤ x := hlb x (List.mem_cons_self x xs)
    have h2 : x ≤ a := by
      rcases List.mem_cons.mp ha with rfl | hmem
      · exact le_refl a
      · exact (List.pairwise_cons.mp hs).1 a hmem
    simp [le_antisymm h2 h1]

theorem bucketKeys_head?_of_early {bars : List Bar}
    (hb : ∃ b ∈ marketHoursOf bars, b.t < 575) :
    (bucketKeys (marketHoursOf bars)).head? = some 114 := by
  obtain ⟨b0, hb0, hlt⟩ := hb
  have h570 := (mem_marketHours_t hb0).1
  refine sorted_head?_eq (List.sorted_insertionSort _ _) ?_ ?_
  · simp only [bucketKeys, List.mem_insertionSort, List.mem_dedup]
    exact List.mem_map.mpr ⟨b0, hb0, by omega⟩
  · intro x hx
    simp only [bucketKeys, List.mem_insertionSort, List.mem_dedup] at hx
    obtain ⟨b, hbm, rfl⟩ := List.mem_map.mp hx
    have := (mem_marketHours_t hbm).1
    omega

theorem progressOf_mono {a b : ℕ} (hab : a ≤ b) : progressOf a ≤ progressOf b := by
  unfold progressOf
  have h : ((a : ℚ)) ≤ (b : ℚ) := by exact_mod_cast hab
  have h3 : ((a : ℚ) - 570) * 60 ≤ ((b : ℚ) - 570) * 60 := by linarith
  have h2 : ((a : ℚ) - 570) * 60 / 23400 ≤ ((b : ℚ) - 570) * 60 / 23400 := by
    calc ((a : ℚ) - 570) * 60 / 23400 = ((a : ℚ) - 570) * 60 * (1 / 23400) := by ring
    _ ≤ ((b : ℚ) - 570) * 60 * (1 / 23400) := by
        exact mul_le_mul_of_nonneg_right h3 (by norm_num)
    _ = ((b : ℚ) - 570) * 60 / 23400 := by ring
  exact max_le_max (le_refl 0) (min_le_min (le_refl 1) h2)

theorem timesNormalizedOf_eq (bars : List Bar) :
    timesNormalizedOf bars =
      (bucketKeys (marketHoursOf bars)).map (fun k => progressOf (5 * k)) := by
  unfold timesNormalizedOf resample5
  rw [List.map_map]
  rfl

/-- C3 counterexample: a day whose earliest session bar is at 9:35
produces a curve whose first time is 1/78, not 0, and whose first price is
the heuristic's selection (50), not 0. -/
theorem C3_counterexample :
    ∃ g, process_gapper_intraday c3bars "T" d0 1 100 = some g ∧
      g.times_normalized.head? ≠ some 0 ∧ g.prices_normalized.head? ≠ some 0 := by
  exact ⟨mkGapper c3bars "T" d0 1, by decide, by decide, by decide⟩

/-- C3 amended: for every event produced by the normalizer,
times_normalized is non-decreasing and bounded in [0,1]; its first element
is exactly 0 whenever some session bar falls in the session's first
5-minute bucket (before 9:35) — otherwise it is the clamped progress of
the earliest non-empty bucket, which can be positive. -/
theorem C3_time_progress_amended (bars : List Bar) (tk : String) (dt : Date) (pc gp : ℚ)
    (g : Gapper) (h : process_gapper_intraday bars tk dt pc gp = some g) :
    List.Sorted (· ≤ ·) g.times_normalized ∧
    (∀ x ∈ g.times_normalized, 0 ≤ x ∧ x ≤ 1) ∧
    ((∃ b ∈ marketHoursOf bars, b.t < 575) → g.times_normalized.head? = some 0) := by
  obtain ⟨hg, -, -⟩ := process_some_elim h
  subst hg
  have htimes : (mkGapper bars tk dt pc).times_normalized = timesNormalizedOf bars := rfl
  refine ⟨?_, ?_, ?_⟩
  · rw [htimes, timesNormalizedOf_eq]
    exact List.Pairwise.map _ (fun a b hab => progressOf_mono (by omega))
      (List.sorted_insertionSort _ _)
  · intro x hx
    rw [htimes] at hx
    obtain ⟨bk, -, rfl⟩ := List.mem_map.mp hx
    unfold progressOf
    exact ⟨le_max_left 0 _, max_le (by norm_num) (min_le_left 1 _)⟩
  · intro hex
    rw [htimes, timesNormalizedOf_eq, List.head?_map, bucketKeys_head?_of_early hex]
    have hz : progressOf (5 * 114) = 0 := by decide
    have hm : Option.map (fun k => progressOf (5 * k)) (some 114) =
        some (progressOf (5 * 114)) := rfl
    rw [hm, hz]

/-- C3 witness: a concrete event whose earliest bar is at 9:30: sorted
times, bounded, and first time exactly 0. -/
theorem C3_time_progress_amended_witness :
    List.Sorted (· ≤ ·) (mkGapper c2bars "T" d0 1).times_normalized ∧
    (mkGapper c2bars "T" d0 1).times_normalized.head? = some 0 := by
  have h := C3_time_progress_amended c2bars "T" d0 1 100 (mkGapper c2bars "T" d0 1) (by decide)
  exact ⟨h.1, h.2.2 ⟨⟨570, 2, 2, 2, 2, 100⟩, by decide, by decide⟩⟩

/-! ## Interpolation lemmas (for C4) -/

theorem chain_lt_head_lt {x0 : ℚ} {l : List ℚ} (hc : List.Chain' (· < ·) (x0 :: l))
    (j : ℕ) (hj : j < l.length) : x0 < l.get ⟨j, hj⟩ :=
  (List.pairwise_cons.mp (List.chain'_iff_pairwise.mp hc)).1 _ (List.get_mem l j hj)

/-- C4: the embedded np.interp is exact at its own knots — for strictly
increasing knots, interpolating at an original time point reproduces the
original value; hence resampling a curve at its own time_progress points
reproduces its price_pct values. -/
theorem C4_interp_exact_at_knots (xs ys : List ℚ) (hs : List.Chain' (· < ·) xs)
    (hl : xs.length = ys.length) (i : ℕ) (hx : i < xs.length) (hy : i < ys.length) :
    interp (xs.get ⟨i, hx⟩) xs ys = ys.get ⟨i, hy⟩ := by
  induction xs generalizing ys i with
  | nil => simp at hx
  | cons x0 xt ih =>
    cases ys with
    | nil => simp at hy
    | cons y0 yt =>
      cases xt with
      | nil =>
        have hi0 : i = 0 := by
          simp at hx
          omega
        subst hi0
        cases yt with
        | nil => rfl
        | cons y1 ytt => simp at hl
      | cons x1 xtt =>
        cases yt with
        | nil => simp at hl
        | cons y1 ytt =>
          have hx0x1 : x0 < x1 := (List.chain'_cons.mp hs).1
          have htail : List.Chain' (· < ·) (x1 :: xtt) := (List.chain'_cons.mp hs).2
          cases i with
          | zero =>
            show interp x0 (x0 :: x1 :: xtt) (y0 :: y1 :: ytt) = y0
            simp only [interp]
            rw [if_pos (le_refl x0)]
          | succ j =>
            have hjlt : j < (x1 :: xtt).length := by
              simp at hx ⊢
              omega
            have hjy : j < (y1 :: ytt).length := by
              simp at hy ⊢
              omega
            have hget : (x0 :: x1 :: xtt).get ⟨j + 1, hx⟩ = (x1 :: xtt).get ⟨j, hjlt⟩ := rfl
            have hgety : (y0 :: y1 :: ytt).get ⟨j + 1, hy⟩ = (y1 :: ytt).get ⟨j, hjy⟩ := rfl
            rw [hget, hgety]
            have hx0lt : x0 < (x1 :: xtt).get ⟨j, hjlt⟩ := chain_lt_head_lt hs j hjlt
            simp only [interp]
            rw [if_neg (not_le.mpr hx0lt)]
            cases j with
            | zero =>
              have hget1 : (x1 :: xtt).get ⟨0, hjlt⟩ = x1 := rfl
              rw [hget1, if_pos (le_refl x1)]
              have hne : x1 - x0 ≠ 0 := sub_ne_zero.mpr (ne_of_gt hx0x1)
              show y0 + (y1 - y0) * (x1 - x0) / (x1 - x0) = (y1 :: ytt).get ⟨0, hjy⟩
              rw [mul_div_assoc, div_self hne, mul_one]
              show y0 + (y1 - y0) = y1
              ring
            | succ k =>
              have hk : k < xtt.length := by
                simp at hjlt
                omega
              have hget2 : (x1 :: xtt).get ⟨k + 1, hjlt⟩ = xtt.get ⟨k, hk⟩ := rfl
              have hx1lt : x1 < (x1 :: xtt).get ⟨k + 1, hjlt⟩ := by
                rw [hget2]
                exact chain_lt_head_lt htail k (by simpa using hk)
              rw [if_neg (not_le.mpr hx1lt)]
              exact ih (y1 :: ytt) htail (by simp at hl ⊢; omega) (k + 1) hjlt hjy

/-- C4 witness: interpolating the curve (0, 1/2, 1) with values
(0, 10, -5) at its own middle knot 1/2 returns exactly 10. -/
theorem C4_interp_exact_at_knots_witness :
    interp (1 / 2) [0, 1 / 2, 1] [0, 10, -5] = 10 := by
  have h := C4_interp_exact_at_knots [0, 1 / 2, 1] [0, 10, -5]
    (by norm_num [List.chain'_cons, List.chain'_singleton]) (by decide)
    1 (by decide) (by decide)
  simpa using h

/-! ## Screening threshold lemmas (for C5) -/

theorem screenStock_ok_gap {pcs : List (String × ℚ)} {acc : List Candidate} {s : StockRow}
    {a' : List Candidate} (h : screenStock pcs acc s = Except.ok a')
    (hP : ∀ c ∈ acc, 50 ≤ c.initial_gap) : ∀ c ∈ a', 50 ≤ c.initial_gap := by
  unfold screenStock at h
  split at h
  · injection h with h2
    subst h2
    exact hP
  · split at h
    · injection h with h2
      subst h2
      exact hP
    · split at h
      · exact Except.noConfusion h
      · split at h
        next h3 =>
          injection h with h4
          subst h4
          intro c hc
          rcases List.mem_append.mp hc with hc | hc
          · exact hP c hc
          · rw [List.mem_singleton.mp hc]
            exact h3.1
        next h3 =>
          injection h with h4
          subst h4
          exact hP

theorem screenStocksAux_gap (pcs : List (String × ℚ)) (ss : List StockRow) :
    ∀ (acc cands : List Candidate), screenStocksAux pcs acc ss = Except.ok cands →
      (∀ c ∈ acc, 50 ≤ c.initial_gap) → ∀ c ∈ cands, 50 ≤ c.initial_gap := by
  induction ss with
  | nil =>
    intro acc cands h hP
    unfold screenStocksAux at h
    injection h with h2
    subst h2
    exact hP
  | cons s ss ih =>
    intro acc cands h hP
    unfold screenStocksAux at h
    cases hs : screenStock pcs acc s with
    | ok acc' =>
      rw [hs] at h
      exact ih acc' cands h (screenStock_ok_gap hs hP)
    | error e =>
      rw [hs] at h
      exact Except.noConfusion h

/-- C5: every candidate surviving the screening has initial_gap at least
50; every event returned by the normalizer has gap_percentage at least
50 (so a 49.9% gap can reach no aggregate); and a concrete
otherwise-qualifying event with gap exactly 50.0 is produced and yields a
period aggregate. -/
theorem C5_gap_threshold :
    (∀ stocks pcs c, c ∈ fetch_candidates_screen stocks pcs → 50 ≤ c.initial_gap) ∧
    (∀ bars tk dt pc gp g, process_gapper_intraday bars tk dt pc gp = some g →
        50 ≤ g.gap_percentage) ∧
    (∃ g, process_gapper_intraday c5bars "GAP" d0 2 50 = some g ∧ g.gap_percentage = 50 ∧
        (calculate_period_average [g] "p").isSome = true) := by
  refine ⟨?_, ?_, ?_⟩
  · intro stocks pcs c hc
    unfold fetch_candidates_screen at hc
    cases hsc : screenStocks stocks pcs with
    | ok cands =>
      rw [hsc] at hc
      refine screenStocksAux_gap pcs stocks [] cands hsc ?_ c hc
      intro c hc
      cases hc
    | error e =>
      rw [hsc] at hc
      cases hc
  · intro bars tk dt pc gp g h
    obtain ⟨hg, -, hgap⟩ := process_some_elim h
    subst hg
    show 50 ≤ actualGapOf bars pc
    linarith [not_lt.mp hgap]
  · exact ⟨mkGapper c5bars "GAP" d0 2, by decide, by decide, by rfl⟩

/-- C5 witness: the concrete 100%-gap candidate passes the screen, and the
concrete exactly-50% event passes the normalizer's gate. -/
theorem C5_gap_threshold_witness :
    50 ≤ ({ ticker := "BBB", previous_close := 1, initial_gap := 100, opening := 2 } :
      Candidate).initial_gap ∧
    50 ≤ (mkGapper c5bars "GAP" d0 2).gap_percentage :=
  ⟨C5_gap_threshold.1 [⟨"BBB", 2⟩] [("BBB", 1)] _ (by decide),
   C5_gap_threshold.2.1 c5bars "GAP" d0 2 50 _ (by decide)⟩

/-- C9: the aggregator returns nothing for an empty event list, and
nothing when no event has a curve of length at least 2; otherwise the
events with short curves are excluded from the interpolated average
curves only — they are still counted in gapper_count, in the volume and
dollar-volume sums, and in the denominators of the gap, open-to-close and
HOD/LOD percentage means. -/
theorem C9_aggregate_scalars :
    (∀ gs pn, gs = [] ∨ (∀ g ∈ gs, g.times_normalized.length ≤ 1) →
        calculate_period_average gs pn = none) ∧
    (∀ gs pn, gs ≠ [] → (∃ g ∈ gs, 1 < g.times_normalized.length) →
        ∃ a, calculate_period_average gs pn = some a ∧
          a.gapper_count = gs.length ∧
          a.total_volume = (gs.map Gapper.total_volume).sum ∧
          a.total_dollar_volume = (gs.map Gapper.dollar_volume).sum ∧
          a.avg_gap_percentage =
            pyRound2 ((gs.map Gapper.gap_percentage).sum / (gs.length : ℚ)) ∧
          a.avg_open_to_close =
            pyRound2 ((gs.map Gapper.open_to_close_change).sum / (gs.length : ℚ)) ∧
          a.avg_high_of_day_pct =
            pyRound2 ((gs.map Gapper.high_of_day_pct).sum / (gs.length : ℚ)) ∧
          a.avg_low_of_day_pct =
            pyRound2 ((gs.map Gapper.low_of_day_pct).sum / (gs.length : ℚ)) ∧
          a.avg_prices = (meanAxis0 ((gs.filter curveEligible).map
              (fun g => interpCurve g.times_normalized g.prices_normalized))).map pyRound2) := by
  constructor
  · intro gs pn hcase
    rcases hcase with rfl | hall
    · rfl
    · have hfilter : gs.filter curveEligible = [] := by
        rw [List.filter_eq_nil_iff]
        intro g hg
        simp only [curveEligible, decide_eq_true_eq, not_lt]
        exact hall g hg
      unfold calculate_period_average
      rcases em (gs = []) with h1 | h1
      · rw [if_pos h1]
      · rw [if_neg h1, if_pos hfilter]
  · intro gs pn hne hex
    have hfilter : gs.filter curveEligible ≠ [] := by
      obtain ⟨g, hg, hlen⟩ := hex
      refine List.ne_nil_of_mem (List.mem_filter.mpr ⟨hg, ?_⟩)
      simp only [curveEligible, decide_eq_true_eq]
      exact hlen
    refine ⟨mkPeriodAggregate gs pn, ?_, rfl, rfl, rfl, rfl, rfl, ?_, ?_, rfl⟩
    · unfold calculate_period_average
      rw [if_neg hne, if_neg hfilter]
    · show pyRound2 (meanQ (gs.map Gapper.high_of_day_pct)) = _
      rw [meanQ, List.length_map]
    · show pyRound2 (meanQ (gs.map Gapper.low_of_day_pct)) = _
      rw [meanQ, List.length_map]

/-- C9 witness: the empty list aggregates to nothing, and a singleton
list with a 2-point curve aggregates with gapper_count 1. -/
theorem C9_aggregate_scalars_witness :
    calculate_period_average [] "w" = none ∧
    ∃ a, calculate_period_average [gAgg] "w" = some a ∧ a.gapper_count = 1 := by
  refine ⟨C9_aggregate_scalars.1 [] "w" (Or.inl rfl), ?_⟩
  obtain ⟨a, h1, h2, -, -, -, -, -, -, -⟩ := C9_aggregate_scalars.2 [gAgg] "w" (by simp)
    ⟨gAgg, by simp, by decide⟩
  exact ⟨a, h1, h2⟩

/-- C10: every aggregate the aggregator returns carries exactly 78 time
labels, 78 averaged prices/highs/lows and a 78-point open line, its mean
HOD time averages only over curve-eligible events, while the HOD/LOD
percentage means average over all events. -/
theorem C10_canonical_grid (gs : List Gapper) (pn : String) (a : PeriodAggregate)
    (h : calculate_period_average gs pn = some a) :
    a.time_labels.length = 78 ∧ a.avg_prices.length = 78 ∧ a.avg_highs.length = 78 ∧
    a.avg_lows.length = 78 ∧ a.open_line.length = 78 ∧
    a.avg_hod_time = ((gs.filter curveEligible).map Gapper.hod_time_percentage).sum /
      (((gs.filter curveEligible).map Gapper.hod_time_percentage).length : ℚ) ∧
    a.avg_high_of_day_pct = pyRound2 ((gs.map Gapper.high_of_day_pct).sum / (gs.length : ℚ)) ∧
    a.avg_low_of_day_pct = pyRound2 ((gs.map Gapper.low_of_day_pct).sum / (gs.length : ℚ)) := by
  have ha : a = mkPeriodAggregate gs pn := by
    unfold calculate_period_average at h
    split_ifs at h
    exact (Option.some.inj h).symm
  subst ha
  have hlen : time_points.length = 78 := by
    unfold time_points
    rw [List.length_map, List.length_range]
  have hmean : ∀ curves : List (List ℚ), (meanAxis0 curves).length = 78 := by
    intro curves
    unfold meanAxis0
    rw [List.length_map, List.length_range]
  refine ⟨?_, ?_, ?_, ?_, ?_, rfl, ?_, ?_⟩
  · show (time_points.map (fun t => clockLabel (t * market_minutes))).length = 78
    rw [List.length_map, hlen]
  · show ((meanAxis0 _).map pyRound2).length = 78
    rw [List.length_map, hmean]
  · show ((meanAxis0 _).map pyRound2).length = 78
    rw [List.length_map, hmean]
  · show ((meanAxis0 _).map pyRound2).length = 78
    rw [List.length_map, hmean]
  · show (List.replicate (time_points.map (fun t => clockLabel (t * market_minutes))).length
      (0 : ℚ)).length = 78
    rw [List.length_replicate, List.length_map, hlen]
  · show pyRound2 (meanQ (gs.map Gapper.high_of_day_pct)) = _
    rw [meanQ, List.length_map]
  · show pyRound2 (meanQ (gs.map Gapper.low_of_day_pct)) = _
    rw [meanQ, List.length_map]

/-- C10 witness: the concrete singleton aggregate has 78-point curves and
its mean HOD time equals the one contributing event's HOD time. -/
theorem C10_canonical_grid_witness :
    (mkPeriodAggregate [gAgg] "w2").avg_prices.length = 78 ∧
    (mkPeriodAggregate [gAgg] "w2").open_line.length = 78 :=
  ⟨(C10_canonical_grid [gAgg] "w2" _ (by rfl)).2.1,
   (C10_canonical_grid [gAgg] "w2" _ (by rfl)).2.2.2.2.1⟩

end GapDash
